import Mathlib

/-!
# Verification of the icon-font-subset glyph-extraction core

A shallow embedding of the C++ sources under `src/` of the
icon-font-subset-plugin repository, together with theorems settling the
frozen claims about the natural-language specification.

Two C++ variants of the extraction engine exist:

* the "runtime" variant
  (`font-subsetting/font-subsetting-runtime/src/main/cpp/font_path_extractor.cpp`
  and `font_path_jni.cpp`), and
* the "compose" variant
  (`compose-glyphs/src/main/cpp/font_path_extractor.cpp` and
  `font_path_jni.cpp`).

IEEE-754 single-precision coordinates are modelled as rationals `ℚ`; the
properties settled here are order-theoretic and structural (layout,
lengths, min/max folds, lifecycle orderings), which the rational model
captures exactly.  HarfBuzz is the external shaping engine; its calls are
modelled as deterministic oracles (records of functions), since the spec
treats it as an external collaborator specified only by its interface.
Pointer-valued HarfBuzz handles are modelled as `Bool` non-null flags,
and the mutable state HarfBuzz keeps inside the session-owned `hb_font_t`
(active variation settings) and `hb_buffer_t` (buffer contents) is made
explicit as fields of the session records.
-/

namespace FontSubsetting

/-- `PathCommand::Type` from `font_path_extractor.h` (both variants):
`MOVE_TO, LINE_TO, QUADRATIC_TO, CUBIC_TO, CLOSE`, with the C++ enum
values 0..4 in declaration order. -/
inductive PathCommandType where
  | MOVE_TO
  | LINE_TO
  | QUADRATIC_TO
  | CUBIC_TO
  | CLOSE
deriving DecidableEq, Repr

/-- The numeric value of the C++ enum `PathCommand::Type` (declaration
order, starting at 0), as used by `static_cast<float>(cmd.type)` in the
wire packers. -/
def PathCommandType.code : PathCommandType → ℕ
  | .MOVE_TO => 0
  | .LINE_TO => 1
  | .QUADRATIC_TO => 2
  | .CUBIC_TO => 3
  | .CLOSE => 4

/-- `struct PathCommand` from the runtime `font_path_extractor.h`: a type
tag plus six floats `x1,y1,x2,y2,x3,y3`.  The compose variant stores the
same six floats as a union (`point` / `quadratic` / `cubic` overlap the
same 24 bytes), so this flat record covers both variants: `point.x/y`
occupy `x1,y1`; `quadratic.cx,cy,x,y` occupy `x1,y1,x2,y2`;
`cubic.cx1,cy1,cx2,cy2,x,y` occupy `x1..y3`.  Fields a command type does
not use are indeterminate in C++; the draw callbacks modelled by the
`draw` oracle below may put any value there. -/
structure PathCommand where
  type : PathCommandType
  x1 : ℚ
  y1 : ℚ
  x2 : ℚ
  y2 : ℚ
  x3 : ℚ
  y3 : ℚ
deriving DecidableEq, Repr

/-- The control points a command carries, by type, exactly the fields the
scaling and bounding-box `switch` statements of both variants touch:
`MOVE_TO`/`LINE_TO` use `(x1,y1)`; `QUADRATIC_TO` uses `(x1,y1),(x2,y2)`;
`CUBIC_TO` uses all three; `CLOSE` contributes nothing. -/
def PathCommand.points (c : PathCommand) : List (ℚ × ℚ) :=
  match c.type with
  | .MOVE_TO => [(c.x1, c.y1)]
  | .LINE_TO => [(c.x1, c.y1)]
  | .QUADRATIC_TO => [(c.x1, c.y1), (c.x2, c.y2)]
  | .CUBIC_TO => [(c.x1, c.y1), (c.x2, c.y2), (c.x3, c.y3)]
  | .CLOSE => []

/-- The coordinate-scaling `switch` of both variants (`cmd.x1 *= scale;`
etc.), scaling exactly the fields the command's type uses. -/
def PathCommand.scaled (scale : ℚ) (c : PathCommand) : PathCommand :=
  match c.type with
  | .MOVE_TO => { c with x1 := c.x1 * scale, y1 := c.y1 * scale }
  | .LINE_TO => { c with x1 := c.x1 * scale, y1 := c.y1 * scale }
  | .QUADRATIC_TO =>
      { c with x1 := c.x1 * scale, y1 := c.y1 * scale,
               x2 := c.x2 * scale, y2 := c.y2 * scale }
  | .CUBIC_TO =>
      { c with x1 := c.x1 * scale, y1 := c.y1 * scale,
               x2 := c.x2 * scale, y2 := c.y2 * scale,
               x3 := c.x3 * scale, y3 := c.y3 * scale }
  | .CLOSE => c

/-- `struct GlyphPath` (both variants): a command buffer plus advance
width, units-per-em and bounding box.  The C++ `PathCommandArray` inside
it is modelled by the list of its `size` stored commands. -/
structure GlyphPath where
  commands : List PathCommand
  advanceWidth : ℚ
  unitsPerEm : ℤ
  minX : ℚ
  minY : ℚ
  maxX : ℚ
  maxY : ℚ
deriving DecidableEq, Repr

/-- `GlyphPath::GlyphPath()` — the C++ default constructor zeroes every
numeric field; the command array starts empty. -/
def GlyphPath.mkDefault : GlyphPath :=
  { commands := [], advanceWidth := 0, unitsPerEm := 0
    minX := 0, minY := 0, maxX := 0, maxY := 0 }

/-- `GlyphPath::isEmpty()` — `commands.empty()`, i.e. `size == 0`. -/
def GlyphPath.isEmpty (g : GlyphPath) : Bool := g.commands.isEmpty

/-- `FLT_MAX` as defined directly in both extractor sources:
`3.40282347e+38F`, i.e. 340282347 followed by 30 zeros. -/
def FLT_MAX : ℚ := 340282347000000000000000000000000000000

/-- The four bounding-box accumulators `pathMinX, pathMinY, pathMaxX,
pathMaxY` of the extraction loops. -/
structure BBox where
  minX : ℚ
  minY : ℚ
  maxX : ℚ
  maxY : ℚ
deriving DecidableEq, Repr

/-- The initial accumulator values of the bounding-box loops:
`pathMinX = pathMinY = FLT_MAX, pathMaxX = pathMaxY = -FLT_MAX`. -/
def BBox.init : BBox :=
  { minX := FLT_MAX, minY := FLT_MAX, maxX := -FLT_MAX, maxY := -FLT_MAX }

/-- One `min`/`max` update of the four accumulators with one control
point, as in `pathMinX = min(pathMinX, cmd.x1); ...`. -/
def BBox.addPoint (bb : BBox) (p : ℚ × ℚ) : BBox :=
  { minX := min bb.minX p.1, minY := min bb.minY p.2,
    maxX := max bb.maxX p.1, maxY := max bb.maxY p.2 }

/-- One iteration of the bounding-box loop for one command: fold every
control point the command's type uses into the accumulators.  The
runtime variant updates point by point in this exact order; the compose
variant nests, e.g. `min(pathMinX, min(cx, x))`, which is the same value
by associativity and commutativity of `min`/`max`. -/
def BBox.addCommand (bb : BBox) (c : PathCommand) : BBox :=
  c.points.foldl BBox.addPoint bb

/-- All control points of a command list, in traversal order of the
bounding-box loops. -/
def allPoints (cmds : List PathCommand) : List (ℚ × ℚ) :=
  (cmds.map PathCommand.points).flatten

/-- The compose variant's single fused pass over `result.commands`
(`extractPathDirect` loop): scale each command in place and fold its
points into the bounding-box accumulators, in the loop's order. -/
def scaleAndBoundsCompose (scale : ℚ) :
    List PathCommand → BBox → List PathCommand × BBox
  | [], bb => ([], bb)
  | c :: rest, bb =>
      let c' := c.scaled scale
      let bb' := bb.addCommand c'
      let (rest', bbF) := scaleAndBoundsCompose scale rest bb'
      (c' :: rest', bbF)

/-- `struct Variation`: a 4-character axis tag plus a float value.  The
`char tag[5]` array is modelled by its packed 32-bit `HB_TAG` code (the
form in which it reaches `hb_font_set_variations`); no claim depends on
the byte-level tag plumbing. -/
structure Variation where
  tag : ℕ
  value : ℚ
deriving DecidableEq, Repr

/-- The variation-installation step shared by both `extractPath`
variants: `if (variationCount > 0 && variations)` copy the first
`min(variationCount, bound)` variations into the stack array and call
`hb_font_set_variations` with them, `else` call
`hb_font_set_variations(font, nullptr, 0)` (clear to font defaults,
modelled as the empty active list).  `bound` is 4 in the compose variant
and 16 in the runtime variant. -/
def installedVariations (bound : ℕ) (vars : List Variation) : List Variation :=
  if vars.isEmpty then [] else vars.take bound

/-- Deterministic oracle for the HarfBuzz engine, external to the
repository.  `shape cp vs` is the glyph-id sequence `hb_shape` leaves in
a buffer holding the single codepoint `cp` when the font's active
variations are `vs`; `hAdvance gid vs` is
`hb_font_get_glyph_h_advance`; `drawGlyph gid vs` is the command
sequence the `hb_font_draw_glyph` outline walk appends via the
move/line/quadratic/cubic/close callbacks, in font units. -/
structure HarfBuzzModel where
  upem : ℕ
  shape : ℕ → List Variation → List ℕ
  hAdvance : ℕ → List Variation → ℤ
  drawGlyph : ℕ → List Variation → List PathCommand

/-- `struct SharedFontData` (compose variant): five owned HarfBuzz
pointers (modelled as non-null flags), the cached `upem`, plus the
mutable state living inside the owned `hb_font_t` (active variations)
and `hb_buffer_t` (glyph contents after the last shape). -/
structure SharedFontData where
  blob : Bool
  face : Bool
  prototypeFont : Bool
  reusableBuffer : Bool
  drawFuncs : Bool
  upem : ℕ
  fontVariations : List Variation
  bufferGlyphs : List ℕ
deriving DecidableEq, Repr

/-- The compose `SharedFontData()` constructor: every pointer null. -/
def SharedFontData.null : SharedFontData :=
  { blob := false, face := false, prototypeFont := false,
    reusableBuffer := false, drawFuncs := false,
    upem := 0, fontVariations := [], bufferGlyphs := [] }

/-- The five session-owned HarfBuzz objects, named by their creation
sites in `SharedFontData::initialize`. -/
inductive HBObj where
  | blob
  | face
  | font
  | buffer
  | drawFuncs
deriving DecidableEq, Repr

/-- The creation order of the derived engine objects in
`SharedFontData::initialize`: blob, face, font, buffer, draw funcs. -/
def creationOrder : List HBObj :=
  [HBObj.blob, HBObj.face, HBObj.font, HBObj.buffer, HBObj.drawFuncs]

/-- `SharedFontData::destroy()`: release each non-null owned object in
the order draw funcs, buffer, font, face, blob, nulling each pointer
after its release.  Returns the list of released objects (the
`hb_*_destroy` calls, in call order) together with the state left
behind.  Destroying the font and buffer also discards the variation and
buffer state HarfBuzz kept inside them. -/
def SharedFontData.destroy (s : SharedFontData) : List HBObj × SharedFontData :=
  ((if s.drawFuncs then [HBObj.drawFuncs] else []) ++
   (if s.reusableBuffer then [HBObj.buffer] else []) ++
   (if s.prototypeFont then [HBObj.font] else []) ++
   (if s.face then [HBObj.face] else []) ++
   (if s.blob then [HBObj.blob] else []),
   { s with blob := false, face := false, prototypeFont := false,
            reusableBuffer := false, drawFuncs := false,
            fontVariations := [], bufferGlyphs := [] })

/-- Every owned engine pointer of the session is null. -/
def SharedFontData.allReleased (s : SharedFontData) : Prop :=
  s.blob = false ∧ s.face = false ∧ s.prototypeFont = false ∧
  s.reusableBuffer = false ∧ s.drawFuncs = false

/-- Allocation oracle for one initialization attempt: whether each of
the five HarfBuzz creation calls returns a non-null object. -/
structure AllocOracle where
  blobOk : Bool
  faceOk : Bool
  fontOk : Bool
  bufferOk : Bool
  drawFuncsOk : Bool
deriving DecidableEq, Repr

/-- `SharedFontData::initialize(fontData, fontDataSize)` (compose
variant), starting from the freshly constructed null state: check the
bytes, then create blob, face (reading `upem` from it), font, buffer and
draw funcs in that order; on the failure of any step call `destroy()`
(releasing everything created so far) and return `false`.  The
`fontData` pointer and size are modelled by a non-null flag and a `ℕ`;
`upem` comes from the `hb` oracle (`hb_face_get_upem`). -/
def SharedFontData.initialize (o : AllocOracle) (hb : HarfBuzzModel)
    (fontDataPresent : Bool) (fontDataSize : ℕ) : Bool × SharedFontData :=
  if ¬fontDataPresent ∨ fontDataSize = 0 then (false, SharedFontData.null)
  else if ¬o.blobOk then (false, SharedFontData.null)
  else
    let s1 := { SharedFontData.null with blob := true }
    if ¬o.faceOk then (false, s1.destroy.2)
    else
      let s2 := { s1 with face := true, upem := hb.upem }
      if ¬o.fontOk then (false, s2.destroy.2)
      else
        let s3 := { s2 with prototypeFont := true }
        if ¬o.bufferOk then (false, s3.destroy.2)
        else
          let s4 := { s3 with reusableBuffer := true }
          if ¬o.drawFuncsOk then (false, s4.destroy.2)
          else (true, { s4 with drawFuncs := true })

/-- `SharedFontData::extractPathDirect(codepoint, variations,
variationCount)` (compose variant).  Returns the `GlyphPath` together
with the session state after the call (the `hb_font_set_variations`,
`hb_buffer_clear_contents`/`hb_buffer_add`/`hb_shape` mutations). -/
def SharedFontData.extractPathDirect (hb : HarfBuzzModel)
    (s : SharedFontData) (codepoint : ℕ) (variations : List Variation) :
    GlyphPath × SharedFontData :=
  if ¬(s.prototypeFont ∧ s.reusableBuffer ∧ s.drawFuncs) then
    (GlyphPath.mkDefault, s)
  else
    let installed := installedVariations 4 variations
    let glyphs := hb.shape codepoint installed
    let s' := { s with fontVariations := installed, bufferGlyphs := glyphs }
    if glyphs.isEmpty then
      ({ GlyphPath.mkDefault with unitsPerEm := (s.upem : ℤ) }, s')
    else
      let glyphId := glyphs.headI
      let advance := hb.hAdvance glyphId installed
      let scale : ℚ := 1 / (s.upem : ℚ)
      let raw := hb.drawGlyph glyphId installed
      let (cmds, bb) := scaleAndBoundsCompose scale raw BBox.init
      ({ commands := cmds,
         advanceWidth := (advance : ℚ) * scale,
         unitsPerEm := (s.upem : ℤ),
         minX := bb.minX, minY := bb.minY, maxX := bb.maxX, maxY := bb.maxY },
       s')

/-- `struct GlyphHandle` (runtime variant): like `SharedFontData` but
additionally caching the codepoint it was initialized for and the last
shaped glyph id. -/
structure GlyphHandle where
  blob : Bool
  face : Bool
  font : Bool
  buffer : Bool
  drawFuncs : Bool
  glyphId : ℕ
  codepoint : ℕ
  upem : ℕ
  fontVariations : List Variation
  bufferGlyphs : List ℕ
deriving DecidableEq, Repr

/-- The runtime `GlyphHandle()` constructor: every pointer null, ids 0. -/
def GlyphHandle.null : GlyphHandle :=
  { blob := false, face := false, font := false, buffer := false,
    drawFuncs := false, glyphId := 0, codepoint := 0, upem := 0,
    fontVariations := [], bufferGlyphs := [] }

/-- `GlyphHandle::destroy()` (runtime variant): release draw funcs,
buffer, font, face, blob in that order, nulling each pointer. -/
def GlyphHandle.destroy (s : GlyphHandle) : List HBObj × GlyphHandle :=
  ((if s.drawFuncs then [HBObj.drawFuncs] else []) ++
   (if s.buffer then [HBObj.buffer] else []) ++
   (if s.font then [HBObj.font] else []) ++
   (if s.face then [HBObj.face] else []) ++
   (if s.blob then [HBObj.blob] else []),
   { s with blob := false, face := false, font := false, buffer := false,
            drawFuncs := false, fontVariations := [], bufferGlyphs := [] })

/-- Every owned engine pointer of the handle is null. -/
def GlyphHandle.allReleased (s : GlyphHandle) : Prop :=
  s.blob = false ∧ s.face = false ∧ s.font = false ∧
  s.buffer = false ∧ s.drawFuncs = false

/-- `GlyphHandle::initialize(fontData, fontDataSize, cp)` (runtime
variant): like the compose `initialize` but it additionally shapes the
codepoint once with default variations and fails (destroying
everything) when shaping yields zero glyphs; on success it caches the
shaped glyph id. -/
def GlyphHandle.initialize (o : AllocOracle) (hb : HarfBuzzModel)
    (fontDataPresent : Bool) (fontDataSize : ℕ) (cp : ℕ) :
    Bool × GlyphHandle :=
  if ¬fontDataPresent ∨ fontDataSize = 0 then (false, GlyphHandle.null)
  else if ¬o.blobOk then (false, { GlyphHandle.null with codepoint := cp })
  else
    let s1 := { GlyphHandle.null with codepoint := cp, blob := true }
    if ¬o.faceOk then (false, s1.destroy.2)
    else
      let s2 := { s1 with face := true, upem := hb.upem }
      if ¬o.fontOk then (false, s2.destroy.2)
      else
        let s3 := { s2 with font := true }
        if ¬o.bufferOk then (false, s3.destroy.2)
        else
          let s4 := { s3 with buffer := true }
          if ¬o.drawFuncsOk then (false, s4.destroy.2)
          else
            let s5 := { s4 with drawFuncs := true }
            let glyphs := hb.shape cp []
            let s6 := { s5 with bufferGlyphs := glyphs }
            if glyphs.isEmpty then (false, s6.destroy.2)
            else (true, { s6 with glyphId := glyphs.headI })

/-- `GlyphHandle::extractPath(variations, variationCount)` (runtime
variant): same shape-then-walk pipeline as the compose variant, with
variation bound 16, the cached member `codepoint`, the stored glyph id
updated from the shape result, and the scaling and bounding-box loops
run as two separate passes. -/
def GlyphHandle.extractPath (hb : HarfBuzzModel) (s : GlyphHandle)
    (variations : List Variation) : GlyphPath × GlyphHandle :=
  if ¬(s.font ∧ s.buffer ∧ s.drawFuncs) then (GlyphPath.mkDefault, s)
  else
    let installed := installedVariations 16 variations
    let glyphs := hb.shape s.codepoint installed
    let s' := { s with fontVariations := installed, bufferGlyphs := glyphs }
    if glyphs.isEmpty then
      ({ GlyphPath.mkDefault with unitsPerEm := (s.upem : ℤ) }, s')
    else
      let glyphId := glyphs.headI
      let s'' := { s' with glyphId := glyphId }
      let advance := hb.hAdvance glyphId installed
      let scale : ℚ := 1 / (s.upem : ℚ)
      let raw := hb.drawGlyph glyphId installed
      let cmds := raw.map (PathCommand.scaled scale)
      let bb := cmds.foldl BBox.addCommand BBox.init
      ({ commands := cmds,
         advanceWidth := (advance : ℚ) * scale,
         unitsPerEm := (s.upem : ℤ),
         minX := bb.minX, minY := bb.minY, maxX := bb.maxX, maxY := bb.maxY },
       s'')

/-- One 7-wide wire record of the runtime `packGlyphPathToArray`:
`[type, x1, y1, x2, y2, x3, y3]`. -/
def commandRecord (c : PathCommand) : List ℚ :=
  [(c.type.code : ℚ), c.x1, c.y1, c.x2, c.y2, c.x3, c.y3]

/-- `packGlyphPathToArray` from the runtime `font_path_jni.cpp` (7-wide
records): header `[numCommands, advanceWidth, unitsPerEm, minX, minY,
maxX, maxY]` followed by one record per command.  The jfloatArray is
modelled as the list of values written. -/
def packGlyphPathToArray (g : GlyphPath) : List ℚ :=
  [(g.commands.length : ℚ), g.advanceWidth, (g.unitsPerEm : ℚ),
   g.minX, g.minY, g.maxX, g.maxY] ++
  (g.commands.map commandRecord).flatten

/-- The teardown steps of `nativeDestroyFontHandle` (compose
`font_path_jni.cpp`). -/
inductive TeardownEvent where
  | freeFontData
  | release (o : HBObj)
  | deleteHandle
deriving DecidableEq, Repr

/-- `struct NativeFontHandle` from the compose `font_path_jni.cpp`: the
raw font bytes in native memory plus the owned `SharedFontData`. -/
structure NativeFontHandle where
  fontPtr : ℕ
  fontDataPtr : Bool
  sharedFontPtr : Bool
  sharedFont : SharedFontData

/-- `nativeDestroyFontHandle(fontPtr)` (compose variant): a null handle
is a no-op; otherwise `free(handle->fontData)` runs first, then `delete
handle->sharedFont` (whose destructor calls `SharedFontData::destroy()`,
releasing the derived engine objects), then the handle itself is
deleted.  Returns the teardown steps in execution order. -/
def nativeDestroyFontHandle (h : NativeFontHandle) : List TeardownEvent :=
  if h.fontPtr = 0 then []
  else
    (if h.fontDataPtr then [TeardownEvent.freeFontData] else []) ++
    (if h.sharedFontPtr then h.sharedFont.destroy.1.map TeardownEvent.release
     else []) ++
    [TeardownEvent.deleteHandle]

/-- Whether a teardown step is one of the `hb_*_destroy` releases. -/
def TeardownEvent.isRelease : TeardownEvent → Bool
  | .release _ => true
  | _ => false

/-- Checks that no engine-object release happens after the raw font
bytes are freed in a teardown trace (the ordering the spec asserts). -/
def noReleaseAfterFree : List TeardownEvent → Bool
  | [] => true
  | .freeFontData :: rest => rest.all (fun e => !e.isRelease)
  | _ :: rest => noReleaseAfterFree rest

/-- `struct PathCommandArray` (both variants): `data[0..size)` modelled
as the list of stored commands, plus the allocated `capacity`. -/
structure PathCommandArray where
  entries : List PathCommand
  capacity : ℕ
deriving DecidableEq, Repr

/-- `PathCommandArray::push_back` of the runtime variant: when full,
compute `new_capacity = capacity == 0 ? 8 : capacity * 2` and call
`reserve` (`realloc`, which preserves the stored entries; on allocation
failure it leaves the array untouched); then store the command only if
`size < capacity`.  `allocOk` is the outcome of the `realloc` call. -/
def pushBackRuntime (allocOk : Bool) (a : PathCommandArray)
    (cmd : PathCommand) : PathCommandArray :=
  let a' :=
    if a.capacity ≤ a.entries.length then
      let newCap := if a.capacity = 0 then 8 else a.capacity * 2
      if newCap ≤ a.capacity then a
      else if allocOk then { a with capacity := newCap } else a
    else a
  if a'.entries.length < a'.capacity then
    { a' with entries := a'.entries ++ [cmd] }
  else a'

/-- `PathCommandArray::push_back` of the compose variant: when full,
`grow()` computes `new_capacity = capacity * 2` and calls `reserve`
(`malloc` + `memcpy` of the `size` stored entries, preserving their
order; `reserve` returns immediately when `new_capacity <= capacity`,
so a zero-capacity array never grows); then store only if
`size < capacity`.  The `data != inline_storage` guard in `reserve` is
always false in this code path (the constructor only ever points `data`
at heap storage), so it is not modelled. -/
def pushBackCompose (allocOk : Bool) (a : PathCommandArray)
    (cmd : PathCommand) : PathCommandArray :=
  let a' :=
    if a.capacity ≤ a.entries.length then
      let newCap := a.capacity * 2
      if newCap ≤ a.capacity then a
      else if allocOk then { a with capacity := newCap } else a
    else a
  if a'.entries.length < a'.capacity then
    { a' with entries := a'.entries ++ [cmd] }
  else a'

/-- The compose `PathCommandArray()` constructor: start from
`data = nullptr, size = 0, capacity = 0` and `reserve(32)`; if that
`malloc` fails the array keeps capacity 0. -/
def mkPathCommandArrayCompose (allocOk : Bool) : PathCommandArray :=
  if allocOk then { entries := [], capacity := 32 }
  else { entries := [], capacity := 0 }

/-- The behavior claim C4 asserts of one `push_back` call: either the
command is stored at index `size`, or the allocation failed and the
array is unchanged. -/
def appendClaim (push : Bool → PathCommandArray → PathCommand → PathCommandArray)
    (allocOk : Bool) (a : PathCommandArray) (cmd : PathCommand) : Prop :=
  (push allocOk a cmd).entries = a.entries ++ [cmd] ∨
  (allocOk = false ∧ push allocOk a cmd = a)

/-- `HB_SUBSET_FLAGS_DEFAULT` from the external `hb-subset.h` ABI. -/
def HB_SUBSET_FLAGS_DEFAULT : ℕ := 0

/-- `HB_SUBSET_FLAGS_NO_HINTING` from the external `hb-subset.h` ABI. -/
def HB_SUBSET_FLAGS_NO_HINTING : ℕ := 1

/-- `HB_SUBSET_FLAGS_DESUBROUTINIZE` from the external `hb-subset.h`
ABI. -/
def HB_SUBSET_FLAGS_DESUBROUTINIZE : ℕ := 4

/-- `HB_SUBSET_FLAGS_GLYPH_NAMES` from the external `hb-subset.h` ABI
(bit 8); setting it KEEPS glyph names. -/
def HB_SUBSET_FLAGS_GLYPH_NAMES : ℕ := 256

/-- The subset-input flag computation of `perform_subsetting`
(`font_subsetter.cpp` lines 116-142): start from the default flags; if
`strip_hinting` and the font has hinting data, set `NO_HINTING` and
`DESUBROUTINIZE`; the glyph-name flag has inverted semantics — when
`strip_glyph_names` is true (regardless of `post` table size) the
keep-names flag is NOT set, and only `!strip_glyph_names` sets it. -/
def performSubsettingFlags (stripHinting stripGlyphNames : Bool)
    (totalHintingSize postSize : ℕ) : ℕ :=
  let flags := HB_SUBSET_FLAGS_DEFAULT
  let flags :=
    if stripHinting ∧ 0 < totalHintingSize then
      (flags ||| HB_SUBSET_FLAGS_NO_HINTING) ||| HB_SUBSET_FLAGS_DESUBROUTINIZE
    else flags
  if stripGlyphNames ∧ 0 < postSize then flags
  else if ¬stripGlyphNames then flags ||| HB_SUBSET_FLAGS_GLYPH_NAMES
  else flags

/-! Concrete sample inputs used by witnesses and counterexamples. -/

/-- A HarfBuzz oracle for a font where the codepoint shapes to glyph 7,
with advance 600 font units and a small three-command outline
(upem 1000). -/
def hbSample : HarfBuzzModel :=
  { upem := 1000
    shape := fun _ _ => [7]
    hAdvance := fun _ _ => 600
    drawGlyph := fun _ _ =>
      [{ type := .MOVE_TO, x1 := 0, y1 := 0, x2 := 0, y2 := 0, x3 := 0, y3 := 0 },
       { type := .LINE_TO, x1 := 10, y1 := 20, x2 := 0, y2 := 0, x3 := 0, y3 := 0 },
       { type := .CLOSE, x1 := 0, y1 := 0, x2 := 0, y2 := 0, x3 := 0, y3 := 0 }] }

/-- A HarfBuzz oracle for a font where shaping the codepoint yields zero
glyphs. -/
def hbNoGlyphs : HarfBuzzModel :=
  { upem := 1000, shape := fun _ _ => [], hAdvance := fun _ _ => 0,
    drawGlyph := fun _ _ => [] }

/-- A HarfBuzz oracle for a whitespace-like glyph: shaping succeeds
(glyph 3, advance 250) but the outline walk appends zero commands. -/
def hbWhitespace : HarfBuzzModel :=
  { upem := 1000, shape := fun _ _ => [3], hAdvance := fun _ _ => 250,
    drawGlyph := fun _ _ => [] }

/-- A fully initialized compose session (all five pointers non-null,
upem 1000, default variations). -/
def readyShared : SharedFontData :=
  { blob := true, face := true, prototypeFont := true,
    reusableBuffer := true, drawFuncs := true,
    upem := 1000, fontVariations := [], bufferGlyphs := [] }

/-- A fully initialized runtime glyph handle for codepoint 65. -/
def readyHandle : GlyphHandle :=
  { blob := true, face := true, font := true, buffer := true,
    drawFuncs := true, glyphId := 7, codepoint := 65, upem := 1000,
    fontVariations := [], bufferGlyphs := [7] }

/-- A live native font handle wrapping a fully initialized session. -/
def fullNativeHandle : NativeFontHandle :=
  { fontPtr := 1, fontDataPtr := true, sharedFontPtr := true,
    sharedFont := readyShared }

/-- A sample variation list with five entries (wght, FILL, GRAD, opsz
and one more), longer than the compose bound of 4. -/
def sampleVariations : List Variation :=
  [⟨0x77676874, 100⟩, ⟨0x46494C4C, 1⟩, ⟨0x47524144, 0⟩,
   ⟨0x6F70737A, 24⟩, ⟨0x524F4E44, 50⟩]

/-- A sample glyph path with three commands, for the wire-packing
scenario. -/
def sampleGlyphPath3 : GlyphPath :=
  { commands :=
      [{ type := .MOVE_TO, x1 := 0, y1 := 0, x2 := 0, y2 := 0, x3 := 0, y3 := 0 },
       { type := .QUADRATIC_TO, x1 := 1/2, y1 := 1/4, x2 := 3/4, y2 := 1,
         x3 := 0, y3 := 0 },
       { type := .CLOSE, x1 := 0, y1 := 0, x2 := 0, y2 := 0, x3 := 0, y3 := 0 }]
    advanceWidth := 3/5, unitsPerEm := 1000,
    minX := 0, minY := 0, maxX := 3/4, maxY := 1 }

end FontSubsetting

namespace FontSubsetting

/-! ## Helper lemmas -/

theorem commandRecord_length (c : PathCommand) : (commandRecord c).length = 7 :=
  rfl

theorem records_flatten_length (cs : List PathCommand) :
    ((cs.map commandRecord).flatten).length = 7 * cs.length := by
  induction cs with
  | nil => simp
  | cons c cs ih =>
      simp only [List.map_cons, List.flatten_cons, List.length_append, ih,
        List.length_cons, commandRecord_length]
      ring

theorem records_extract (cs : List PathCommand) (i : ℕ) (h : i < cs.length) :
    (((cs.map commandRecord).flatten).drop (7 * i)).take 7 =
      commandRecord (cs.get ⟨i, h⟩) := by
  induction cs generalizing i with
  | nil => simp at h
  | cons c cs ih =>
      cases i with
      | zero =>
          simp [commandRecord, List.take_append_of_le_length]
      | succ j =>
          have hj : j < cs.length := by
            simpa [Nat.succ_lt_succ_iff] using h
          have hstep : 7 * (j + 1) = (commandRecord c).length + 7 * j := by
            simp [commandRecord_length]; ring
          simp only [List.map_cons, List.flatten_cons, hstep, List.drop_append]
          simpa using ih j hj

end FontSubsetting

namespace FontSubsetting

/-- C1: for every GlyphPath, the 7-wide wire packing produces a flat
buffer of length `7 + 7*commandCount` whose first 7 slots are
`[commandCount, advanceWidth, unitsPerEm, minX, minY, maxX, maxY]`,
followed by one 7-wide record `[typeCode, x1, y1, x2, y2, x3, y3]` per
command, with typeCode MoveTo=0, LineTo=1, QuadraticTo=2, CubicTo=3,
Close=4; packing a GlyphPath with 3 commands yields a buffer of length
28 whose first slot is 3.0. -/
theorem C1_wire_packing (g : GlyphPath) :
    (packGlyphPathToArray g).length = 7 + 7 * g.commands.length ∧
    (packGlyphPathToArray g).take 7 =
      [(g.commands.length : ℚ), g.advanceWidth, (g.unitsPerEm : ℚ),
       g.minX, g.minY, g.maxX, g.maxY] ∧
    (∀ i (h : i < g.commands.length),
      ((packGlyphPathToArray g).drop (7 + 7 * i)).take 7 =
        [((g.commands.get ⟨i, h⟩).type.code : ℚ),
         (g.commands.get ⟨i, h⟩).x1, (g.commands.get ⟨i, h⟩).y1,
         (g.commands.get ⟨i, h⟩).x2, (g.commands.get ⟨i, h⟩).y2,
         (g.commands.get ⟨i, h⟩).x3, (g.commands.get ⟨i, h⟩).y3]) ∧
    (PathCommandType.code .MOVE_TO = 0 ∧ PathCommandType.code .LINE_TO = 1 ∧
     PathCommandType.code .QUADRATIC_TO = 2 ∧
     PathCommandType.code .CUBIC_TO = 3 ∧ PathCommandType.code .CLOSE = 4) ∧
    (g.commands.length = 3 →
      (packGlyphPathToArray g).length = 28 ∧
      (packGlyphPathToArray g).head? = some ((3 : ℕ) : ℚ)) := by
  refine ⟨?_, ?_, ?_, ⟨rfl, rfl, rfl, rfl, rfl⟩, ?_⟩
  · unfold packGlyphPathToArray
    rw [List.length_append, records_flatten_length]
    simp
  · unfold packGlyphPathToArray
    simp
  · intro i h
    unfold packGlyphPathToArray
    have hstep : 7 + 7 * i =
        ([(g.commands.length : ℚ), g.advanceWidth, (g.unitsPerEm : ℚ),
          g.minX, g.minY, g.maxX, g.maxY]).length + 7 * i := by
      simp
    rw [hstep, List.drop_append, records_extract g.commands i h]
    simp [commandRecord]
  · intro h3
    constructor
    · unfold packGlyphPathToArray
      rw [List.length_append, records_flatten_length, h3]
      simp
    · unfold packGlyphPathToArray
      simp [h3]

/-- Witness for C1: the theorem evaluated at the concrete three-command
sample path — length 28, first slot 3.0, and the first record is
`[0, 0, 0, 0, 0, 0, 0]` (a MoveTo at the origin). -/
theorem C1_wire_packing_witness :
    (packGlyphPathToArray sampleGlyphPath3).length = 28 ∧
    (packGlyphPathToArray sampleGlyphPath3).head? = some ((3 : ℕ) : ℚ) ∧
    ((packGlyphPathToArray sampleGlyphPath3).drop (7 + 7 * 0)).take 7 =
      [0, 0, 0, 0, 0, 0, 0] := by
  have h := C1_wire_packing sampleGlyphPath3
  have h3 : sampleGlyphPath3.commands.length = 3 := by decide
  refine ⟨(h.2.2.2.2 h3).1, (h.2.2.2.2 h3).2, ?_⟩
  have hrec := h.2.2.1 0 (by decide)
  rw [hrec]
  decide

end FontSubsetting

namespace FontSubsetting

theorem installedVariations_eq_take (bound : ℕ) (vars : List Variation) :
    installedVariations bound vars = vars.take bound := by
  cases vars <;> simp [installedVariations]

theorem take_min_length (vars : List Variation) (n : ℕ) :
    vars.take (min vars.length n) = vars.take n := by
  rcases le_total n vars.length with h | h
  · rw [min_eq_right h]
  · rw [min_eq_left h, List.take_length, List.take_of_length_le h]

theorem scaleAndBoundsCompose_eq (scale : ℚ) (cmds : List PathCommand)
    (bb : BBox) :
    scaleAndBoundsCompose scale cmds bb =
      (cmds.map (PathCommand.scaled scale),
       (cmds.map (PathCommand.scaled scale)).foldl BBox.addCommand bb) := by
  induction cmds generalizing bb with
  | nil => rfl
  | cons c rest ih => simp [scaleAndBoundsCompose, ih, BBox.addCommand]

theorem foldl_addCommand_eq_points (cmds : List PathCommand) (bb : BBox) :
    cmds.foldl BBox.addCommand bb = (allPoints cmds).foldl BBox.addPoint bb := by
  induction cmds generalizing bb with
  | nil => rfl
  | cons c rest ih =>
      simp only [allPoints, List.map_cons, List.flatten_cons, List.foldl_append,
        List.foldl_cons]
      rw [ih]
      rfl

theorem foldl_addPoint_minX (ps : List (ℚ × ℚ)) (bb : BBox) :
    (ps.foldl BBox.addPoint bb).minX = (ps.map Prod.fst).foldl min bb.minX := by
  induction ps generalizing bb with
  | nil => rfl
  | cons p rest ih => simp [BBox.addPoint, ih]

theorem foldl_addPoint_minY (ps : List (ℚ × ℚ)) (bb : BBox) :
    (ps.foldl BBox.addPoint bb).minY = (ps.map Prod.snd).foldl min bb.minY := by
  induction ps generalizing bb with
  | nil => rfl
  | cons p rest ih => simp [BBox.addPoint, ih]

theorem foldl_addPoint_maxX (ps : List (ℚ × ℚ)) (bb : BBox) :
    (ps.foldl BBox.addPoint bb).maxX = (ps.map Prod.fst).foldl max bb.maxX := by
  induction ps generalizing bb with
  | nil => rfl
  | cons p rest ih => simp [BBox.addPoint, ih]

theorem foldl_addPoint_maxY (ps : List (ℚ × ℚ)) (bb : BBox) :
    (ps.foldl BBox.addPoint bb).maxY = (ps.map Prod.snd).foldl max bb.maxY := by
  induction ps generalizing bb with
  | nil => rfl
  | cons p rest ih => simp [BBox.addPoint, ih]

theorem foldl_min_le_init {α : Type} [LinearOrder α] (l : List α) (a : α) :
    l.foldl min a ≤ a := by
  induction l generalizing a with
  | nil => exact le_refl a
  | cons x t ih =>
      exact le_trans (ih (min a x)) (min_le_left a x)

theorem foldl_min_le_mem {α : Type} [LinearOrder α] (l : List α) :
    ∀ (a x : α), x ∈ l → l.foldl min a ≤ x := by
  induction l with
  | nil => intro a x hx; simp at hx
  | cons y t ih =>
      intro a x hx
      rcases List.mem_cons.mp hx with h | h
      · subst h
        exact le_trans (foldl_min_le_init t (min a x)) (min_le_right a x)
      · exact ih (min a y) x h

theorem foldl_min_mem_cons {α : Type} [LinearOrder α] (l : List α) (a : α) :
    l.foldl min a ∈ a :: l := by
  induction l generalizing a with
  | nil => simp
  | cons x t ih =>
      have h := ih (min a x)
      rcases List.mem_cons.mp h with h1 | h1
      · have hfold : (x :: t).foldl min a = min a x := by
          simp [List.foldl_cons, h1]
        rcases min_choice a x with hc | hc
        · rw [hfold, hc]
          exact List.mem_cons_self a (x :: t)
        · rw [hfold, hc]
          exact List.mem_cons_of_mem a (List.mem_cons_self x t)
      · have hfold : (x :: t).foldl min a ∈ t := by
          simpa [List.foldl_cons] using h1
        exact List.mem_cons_of_mem a (List.mem_cons_of_mem x hfold)

theorem foldl_min_mem {α : Type} [LinearOrder α] (l : List α) (a : α)
    (hne : l ≠ []) (hle : ∀ x ∈ l, x ≤ a) : l.foldl min a ∈ l := by
  rcases List.mem_cons.mp (foldl_min_mem_cons l a) with h | h
  · obtain ⟨x₀, hx₀⟩ := List.exists_mem_of_ne_nil l hne
    have h1 : l.foldl min a ≤ x₀ := foldl_min_le_mem l a x₀ hx₀
    have h2 : x₀ = l.foldl min a := by
      refine le_antisymm ?_ h1
      rw [h]
      exact hle x₀ hx₀
    exact h2 ▸ hx₀
  · exact h

theorem foldl_max_ge_init {α : Type} [LinearOrder α] (l : List α) (a : α) :
    a ≤ l.foldl max a := by
  induction l generalizing a with
  | nil => exact le_refl a
  | cons x t ih =>
      exact le_trans (le_max_left a x) (ih (max a x))

theorem foldl_max_ge_mem {α : Type} [LinearOrder α] (l : List α) :
    ∀ (a x : α), x ∈ l → x ≤ l.foldl max a := by
  induction l with
  | nil => intro a x hx; simp at hx
  | cons y t ih =>
      intro a x hx
      rcases List.mem_cons.mp hx with h | h
      · subst h
        exact le_trans (le_max_right a x) (foldl_max_ge_init t (max a x))
      · exact ih (max a y) x h

theorem foldl_max_mem_cons {α : Type} [LinearOrder α] (l : List α) (a : α) :
    l.foldl max a ∈ a :: l := by
  induction l generalizing a with
  | nil => simp
  | cons x t ih =>
      have h := ih (max a x)
      rcases List.mem_cons.mp h with h1 | h1
      · have hfold : (x :: t).foldl max a = max a x := by
          simp [List.foldl_cons, h1]
        rcases max_choice a x with hc | hc
        · rw [hfold, hc]
          exact List.mem_cons_self a (x :: t)
        · rw [hfold, hc]
          exact List.mem_cons_of_mem a (List.mem_cons_self x t)
      · have hfold : (x :: t).foldl max a ∈ t := by
          simpa [List.foldl_cons] using h1
        exact List.mem_cons_of_mem a (List.mem_cons_of_mem x hfold)

theorem foldl_max_mem {α : Type} [LinearOrder α] (l : List α) (a : α)
    (hne : l ≠ []) (hge : ∀ x ∈ l, a ≤ x) : l.foldl max a ∈ l := by
  rcases List.mem_cons.mp (foldl_max_mem_cons l a) with h | h
  · obtain ⟨x₀, hx₀⟩ := List.exists_mem_of_ne_nil l hne
    have h1 : x₀ ≤ l.foldl max a := foldl_max_ge_mem l a x₀ hx₀
    have h2 : x₀ = l.foldl max a := by
      refine le_antisymm h1 ?_
      rw [h]
      exact hge x₀ hx₀
    exact h2 ▸ hx₀
  · exact h

theorem mem_allPoints_of_mem {c : PathCommand} {cmds : List PathCommand}
    {p : ℚ × ℚ} (hc : c ∈ cmds) (hp : p ∈ c.points) : p ∈ allPoints cmds := by
  simp only [allPoints, List.mem_flatten, List.mem_map]
  exact ⟨c.points, ⟨c, hc, rfl⟩, hp⟩

end FontSubsetting

namespace FontSubsetting

theorem bbox_fold_bounds (cmds : List PathCommand) :
    ∀ c ∈ cmds, ∀ p ∈ c.points,
      (cmds.foldl BBox.addCommand BBox.init).minX ≤ p.1 ∧
      p.1 ≤ (cmds.foldl BBox.addCommand BBox.init).maxX ∧
      (cmds.foldl BBox.addCommand BBox.init).minY ≤ p.2 ∧
      p.2 ≤ (cmds.foldl BBox.addCommand BBox.init).maxY := by
  intro c hc p hp
  have hmem := mem_allPoints_of_mem hc hp
  rw [foldl_addCommand_eq_points]
  refine ⟨?_, ?_, ?_, ?_⟩
  · rw [foldl_addPoint_minX]
    exact foldl_min_le_mem _ _ _ (List.mem_map_of_mem Prod.fst hmem)
  · rw [foldl_addPoint_maxX]
    exact foldl_max_ge_mem _ _ _ (List.mem_map_of_mem Prod.fst hmem)
  · rw [foldl_addPoint_minY]
    exact foldl_min_le_mem _ _ _ (List.mem_map_of_mem Prod.snd hmem)
  · rw [foldl_addPoint_maxY]
    exact foldl_max_ge_mem _ _ _ (List.mem_map_of_mem Prod.snd hmem)

theorem bbox_fold_mem (cmds : List PathCommand)
    (hne : allPoints cmds ≠ [])
    (hbd : ∀ p ∈ allPoints cmds,
      -FLT_MAX ≤ p.1 ∧ p.1 ≤ FLT_MAX ∧ -FLT_MAX ≤ p.2 ∧ p.2 ≤ FLT_MAX) :
    (cmds.foldl BBox.addCommand BBox.init).minX ∈
      (allPoints cmds).map Prod.fst ∧
    (cmds.foldl BBox.addCommand BBox.init).maxX ∈
      (allPoints cmds).map Prod.fst ∧
    (cmds.foldl BBox.addCommand BBox.init).minY ∈
      (allPoints cmds).map Prod.snd ∧
    (cmds.foldl BBox.addCommand BBox.init).maxY ∈
      (allPoints cmds).map Prod.snd := by
  have hxne : (allPoints cmds).map Prod.fst ≠ [] := by
    intro h
    exact hne (List.map_eq_nil_iff.mp h)
  have hyne : (allPoints cmds).map Prod.snd ≠ [] := by
    intro h
    exact hne (List.map_eq_nil_iff.mp h)
  rw [foldl_addCommand_eq_points]
  refine ⟨?_, ?_, ?_, ?_⟩
  · rw [foldl_addPoint_minX]
    show ((allPoints cmds).map Prod.fst).foldl min BBox.init.minX ∈ _
    refine foldl_min_mem _ _ hxne ?_
    intro x hx
    obtain ⟨p, hp, rfl⟩ := List.mem_map.mp hx
    exact le_trans (hbd p hp).2.1 (le_of_eq rfl)
  · rw [foldl_addPoint_maxX]
    show ((allPoints cmds).map Prod.fst).foldl max BBox.init.maxX ∈ _
    refine foldl_max_mem _ _ hxne ?_
    intro x hx
    obtain ⟨p, hp, rfl⟩ := List.mem_map.mp hx
    exact (hbd p hp).1
  · rw [foldl_addPoint_minY]
    show ((allPoints cmds).map Prod.snd).foldl min BBox.init.minY ∈ _
    refine foldl_min_mem _ _ hyne ?_
    intro y hy
    obtain ⟨p, hp, rfl⟩ := List.mem_map.mp hy
    exact (hbd p hp).2.2.2
  · rw [foldl_addPoint_maxY]
    show ((allPoints cmds).map Prod.snd).foldl max BBox.init.maxY ∈ _
    refine foldl_max_mem _ _ hyne ?_
    intro y hy
    obtain ⟨p, hp, rfl⟩ := List.mem_map.mp hy
    exact (hbd p hp).2.2.1

theorem extract_result_bbox_compose (hb : HarfBuzzModel) (s : SharedFontData)
    (cp : ℕ) (vars : List Variation) :
    (s.extractPathDirect hb cp vars).1.commands = [] ∨
    ((s.extractPathDirect hb cp vars).1.minX =
      ((s.extractPathDirect hb cp vars).1.commands.foldl
        BBox.addCommand BBox.init).minX ∧
     (s.extractPathDirect hb cp vars).1.minY =
      ((s.extractPathDirect hb cp vars).1.commands.foldl
        BBox.addCommand BBox.init).minY ∧
     (s.extractPathDirect hb cp vars).1.maxX =
      ((s.extractPathDirect hb cp vars).1.commands.foldl
        BBox.addCommand BBox.init).maxX ∧
     (s.extractPathDirect hb cp vars).1.maxY =
      ((s.extractPathDirect hb cp vars).1.commands.foldl
        BBox.addCommand BBox.init).maxY) := by
  unfold SharedFontData.extractPathDirect
  by_cases hv : s.prototypeFont ∧ s.reusableBuffer ∧ s.drawFuncs
  · by_cases hg : (hb.shape cp (installedVariations 4 vars)).isEmpty
    · left
      simp [hv, hg, GlyphPath.mkDefault]
    · right
      simp only [hv, hg, if_true, if_false, not_true, not_false_iff,
        if_neg, ite_false, ite_true]
      rw [scaleAndBoundsCompose_eq]
      simp [hv, hg]
  · left
    simp [hv, GlyphPath.mkDefault]

theorem extract_result_bbox_runtime (hb : HarfBuzzModel) (s : GlyphHandle)
    (vars : List Variation) :
    (s.extractPath hb vars).1.commands = [] ∨
    ((s.extractPath hb vars).1.minX =
      ((s.extractPath hb vars).1.commands.foldl BBox.addCommand BBox.init).minX ∧
     (s.extractPath hb vars).1.minY =
      ((s.extractPath hb vars).1.commands.foldl BBox.addCommand BBox.init).minY ∧
     (s.extractPath hb vars).1.maxX =
      ((s.extractPath hb vars).1.commands.foldl BBox.addCommand BBox.init).maxX ∧
     (s.extractPath hb vars).1.maxY =
      ((s.extractPath hb vars).1.commands.foldl BBox.addCommand BBox.init).maxY) := by
  unfold GlyphHandle.extractPath
  by_cases hv : s.font ∧ s.buffer ∧ s.drawFuncs
  · by_cases hg : (hb.shape s.codepoint (installedVariations 16 vars)).isEmpty
    · left
      simp [hv, hg, GlyphPath.mkDefault]
    · right
      simp [hv, hg]
  · left
    simp [hv, GlyphPath.mkDefault]

end FontSubsetting

namespace FontSubsetting

/-- C7: for every non-empty extraction result (both variants), the
bounding box is the componentwise min/max over all control-point
coordinates stored in the command buffer (on-curve and off-curve points
alike, Close contributing nothing): every stored coordinate lies within
`[minX, maxX] × [minY, maxY]`, and (whenever the command buffer has any
control point at all, with all coordinates within the float range) each
of `minX, maxX` is attained by some stored x-coordinate and each of
`minY, maxY` by some stored y-coordinate. -/
theorem C7_bounding_box_minmax :
    (∀ (hb : HarfBuzzModel) (s : SharedFontData) (cp : ℕ)
        (vars : List Variation),
      (s.extractPathDirect hb cp vars).1.commands ≠ [] →
      ((∀ c ∈ (s.extractPathDirect hb cp vars).1.commands, ∀ p ∈ c.points,
          (s.extractPathDirect hb cp vars).1.minX ≤ p.1 ∧
          p.1 ≤ (s.extractPathDirect hb cp vars).1.maxX ∧
          (s.extractPathDirect hb cp vars).1.minY ≤ p.2 ∧
          p.2 ≤ (s.extractPathDirect hb cp vars).1.maxY) ∧
       (allPoints (s.extractPathDirect hb cp vars).1.commands ≠ [] →
        (∀ p ∈ allPoints (s.extractPathDirect hb cp vars).1.commands,
          -FLT_MAX ≤ p.1 ∧ p.1 ≤ FLT_MAX ∧ -FLT_MAX ≤ p.2 ∧ p.2 ≤ FLT_MAX) →
        (s.extractPathDirect hb cp vars).1.minX ∈
          (allPoints (s.extractPathDirect hb cp vars).1.commands).map Prod.fst ∧
        (s.extractPathDirect hb cp vars).1.maxX ∈
          (allPoints (s.extractPathDirect hb cp vars).1.commands).map Prod.fst ∧
        (s.extractPathDirect hb cp vars).1.minY ∈
          (allPoints (s.extractPathDirect hb cp vars).1.commands).map Prod.snd ∧
        (s.extractPathDirect hb cp vars).1.maxY ∈
          (allPoints (s.extractPathDirect hb cp vars).1.commands).map Prod.snd))) ∧
    (∀ (hb : HarfBuzzModel) (s : GlyphHandle) (vars : List Variation),
      (s.extractPath hb vars).1.commands ≠ [] →
      ((∀ c ∈ (s.extractPath hb vars).1.commands, ∀ p ∈ c.points,
          (s.extractPath hb vars).1.minX ≤ p.1 ∧
          p.1 ≤ (s.extractPath hb vars).1.maxX ∧
          (s.extractPath hb vars).1.minY ≤ p.2 ∧
          p.2 ≤ (s.extractPath hb vars).1.maxY) ∧
       (allPoints (s.extractPath hb vars).1.commands ≠ [] →
        (∀ p ∈ allPoints (s.extractPath hb vars).1.commands,
          -FLT_MAX ≤ p.1 ∧ p.1 ≤ FLT_MAX ∧ -FLT_MAX ≤ p.2 ∧ p.2 ≤ FLT_MAX) →
        (s.extractPath hb vars).1.minX ∈
          (allPoints (s.extractPath hb vars).1.commands).map Prod.fst ∧
        (s.extractPath hb vars).1.maxX ∈
          (allPoints (s.extractPath hb vars).1.commands).map Prod.fst ∧
        (s.extractPath hb vars).1.minY ∈
          (allPoints (s.extractPath hb vars).1.commands).map Prod.snd ∧
        (s.extractPath hb vars).1.maxY ∈
          (allPoints (s.extractPath hb vars).1.commands).map Prod.snd))) := by
  constructor
  · intro hb s cp vars hne
    rcases extract_result_bbox_compose hb s cp vars with hempty | ⟨e1, e2, e3, e4⟩
    · exact absurd hempty hne
    · rw [e1, e2, e3, e4]
      exact ⟨bbox_fold_bounds _, fun hpne hbd => bbox_fold_mem _ hpne hbd⟩
  · intro hb s vars hne
    rcases extract_result_bbox_runtime hb s vars with hempty | ⟨e1, e2, e3, e4⟩
    · exact absurd hempty hne
    · rw [e1, e2, e3, e4]
      exact ⟨bbox_fold_bounds _, fun hpne hbd => bbox_fold_mem _ hpne hbd⟩

theorem extractPathDirect_sample_eval :
    (readyShared.extractPathDirect hbSample 65 []).1 =
      { commands :=
          [{ type := .MOVE_TO, x1 := 0, y1 := 0, x2 := 0, y2 := 0,
             x3 := 0, y3 := 0 },
           { type := .LINE_TO, x1 := 1/100, y1 := 1/50, x2 := 0, y2 := 0,
             x3 := 0, y3 := 0 },
           { type := .CLOSE, x1 := 0, y1 := 0, x2 := 0, y2 := 0,
             x3 := 0, y3 := 0 }]
        advanceWidth := 3/5, unitsPerEm := 1000,
        minX := 0, minY := 0, maxX := 1/100, maxY := 1/50 } := by
  unfold SharedFontData.extractPathDirect
  norm_num [readyShared, hbSample, installedVariations, scaleAndBoundsCompose,
    PathCommand.scaled, BBox.addCommand, BBox.addPoint, PathCommand.points,
    BBox.init, GlyphPath.mkDefault, FLT_MAX, min_def, max_def]

/-- Witness for C7: a concrete extraction (three commands MoveTo(0,0),
LineTo(0.01, 0.02), Close after 1/1000 scaling) whose bounding box
attains its min and max over the stored coordinates. -/
theorem C7_bounding_box_minmax_witness :
    (readyShared.extractPathDirect hbSample 65 []).1.commands ≠ [] ∧
    (readyShared.extractPathDirect hbSample 65 []).1.minX ∈
      (allPoints (readyShared.extractPathDirect hbSample 65 []).1.commands).map
        Prod.fst ∧
    (readyShared.extractPathDirect hbSample 65 []).1.maxX ∈
      (allPoints (readyShared.extractPathDirect hbSample 65 []).1.commands).map
        Prod.fst ∧
    (readyShared.extractPathDirect hbSample 65 []).1.minY ∈
      (allPoints (readyShared.extractPathDirect hbSample 65 []).1.commands).map
        Prod.snd ∧
    (readyShared.extractPathDirect hbSample 65 []).1.maxY ∈
      (allPoints (readyShared.extractPathDirect hbSample 65 []).1.commands).map
        Prod.snd := by
  have hne : (readyShared.extractPathDirect hbSample 65 []).1.commands ≠ [] := by
    rw [extractPathDirect_sample_eval]
    simp
  have hpne :
      allPoints (readyShared.extractPathDirect hbSample 65 []).1.commands ≠ [] := by
    rw [extractPathDirect_sample_eval]
    simp [allPoints, PathCommand.points]
  have hbd : ∀ p ∈ allPoints
      (readyShared.extractPathDirect hbSample 65 []).1.commands,
      -FLT_MAX ≤ p.1 ∧ p.1 ≤ FLT_MAX ∧ -FLT_MAX ≤ p.2 ∧ p.2 ≤ FLT_MAX := by
    rw [extractPathDirect_sample_eval]
    norm_num [allPoints, PathCommand.points, FLT_MAX, List.forall_mem_cons]
  have h := (C7_bounding_box_minmax.1 hbSample readyShared 65 [] hne).2 hpne hbd
  exact ⟨hne, h.1, h.2.1, h.2.2.1, h.2.2.2⟩

end FontSubsetting

namespace FontSubsetting

/-- C2 counterexample: with a valid session over a font whose shaping of
codepoint 65 yields zero glyphs (upem 1000), the extraction returns a
GlyphPath with `isEmpty()` true but `unitsPerEm = 1000 ≠ 0`: the claim
that ALL numeric fields are zero is false, because `result.unitsPerEm`
is assigned before the zero-glyph check in both variants. -/
theorem C2_counterexample :
    hbNoGlyphs.shape 65 (installedVariations 4 []) = [] ∧
    (readyShared.extractPathDirect hbNoGlyphs 65 []).1.isEmpty = true ∧
    ¬((readyShared.extractPathDirect hbNoGlyphs 65 []).1.unitsPerEm = 0) := by
  refine ⟨rfl, ?_, ?_⟩ <;>
    simp [SharedFontData.extractPathDirect, readyShared, hbNoGlyphs,
      installedVariations, GlyphPath.mkDefault, GlyphPath.isEmpty]

/-- C2 amended: for every initialized session and codepoint, if shaping
yields zero glyphs then the extraction returns an empty GlyphPath —
`isEmpty()` true, and `advanceWidth, minX, minY, maxX, maxY` all zero —
while `unitsPerEm` keeps the font's units-per-em value (it is populated
before the zero-glyph check), in both variants. -/
theorem C2_empty_shaping_amended :
    (∀ (hb : HarfBuzzModel) (s : SharedFontData) (cp : ℕ)
        (vars : List Variation),
      s.prototypeFont = true → s.reusableBuffer = true → s.drawFuncs = true →
      hb.shape cp (installedVariations 4 vars) = [] →
      (s.extractPathDirect hb cp vars).1.isEmpty = true ∧
      (s.extractPathDirect hb cp vars).1.commands = [] ∧
      (s.extractPathDirect hb cp vars).1.advanceWidth = 0 ∧
      (s.extractPathDirect hb cp vars).1.minX = 0 ∧
      (s.extractPathDirect hb cp vars).1.minY = 0 ∧
      (s.extractPathDirect hb cp vars).1.maxX = 0 ∧
      (s.extractPathDirect hb cp vars).1.maxY = 0 ∧
      (s.extractPathDirect hb cp vars).1.unitsPerEm = (s.upem : ℤ)) ∧
    (∀ (hb : HarfBuzzModel) (s : GlyphHandle) (vars : List Variation),
      s.font = true → s.buffer = true → s.drawFuncs = true →
      hb.shape s.codepoint (installedVariations 16 vars) = [] →
      (s.extractPath hb vars).1.isEmpty = true ∧
      (s.extractPath hb vars).1.commands = [] ∧
      (s.extractPath hb vars).1.advanceWidth = 0 ∧
      (s.extractPath hb vars).1.minX = 0 ∧
      (s.extractPath hb vars).1.minY = 0 ∧
      (s.extractPath hb vars).1.maxX = 0 ∧
      (s.extractPath hb vars).1.maxY = 0 ∧
      (s.extractPath hb vars).1.unitsPerEm = (s.upem : ℤ)) := by
  constructor
  · intro hb s cp vars h1 h2 h3 hshape
    simp [SharedFontData.extractPathDirect, h1, h2, h3, hshape,
      GlyphPath.mkDefault, GlyphPath.isEmpty]
  · intro hb s vars h1 h2 h3 hshape
    simp [GlyphHandle.extractPath, h1, h2, h3, hshape,
      GlyphPath.mkDefault, GlyphPath.isEmpty]

/-- Witness for C2 (amended): zero-glyph shaping against the concrete
no-glyph oracle: the result is empty with zero advance and bounds but
unitsPerEm 1000, in both variants. -/
theorem C2_empty_shaping_amended_witness :
    (readyShared.extractPathDirect hbNoGlyphs 65 []).1.isEmpty = true ∧
    (readyShared.extractPathDirect hbNoGlyphs 65 []).1.advanceWidth = 0 ∧
    (readyShared.extractPathDirect hbNoGlyphs 65 []).1.minX = 0 ∧
    (readyShared.extractPathDirect hbNoGlyphs 65 []).1.unitsPerEm =
      ((1000 : ℕ) : ℤ) ∧
    (readyHandle.extractPath hbNoGlyphs []).1.isEmpty = true ∧
    (readyHandle.extractPath hbNoGlyphs []).1.unitsPerEm = ((1000 : ℕ) : ℤ) := by
  have hc := C2_empty_shaping_amended.1 hbNoGlyphs readyShared 65 []
    rfl rfl rfl rfl
  have hr := C2_empty_shaping_amended.2 hbNoGlyphs readyHandle []
    rfl rfl rfl rfl
  exact ⟨hc.1, hc.2.2.1, hc.2.2.2.1, hc.2.2.2.2.2.2.2, hr.1,
    hr.2.2.2.2.2.2.2⟩

/-- C6: in both variants, an empty variation list clears the session
font's axis settings to the font defaults (set-variations with an empty
set), and a non-empty list installs exactly the first
`min(N, bound)` variations as the active axis settings, silently
ignoring the rest — with bound 4 in the compose variant and 16 in the
runtime variant. -/
theorem C6_variation_install_bound :
    (∀ (hb : HarfBuzzModel) (s : SharedFontData) (cp : ℕ)
        (vars : List Variation),
      s.prototypeFont = true → s.reusableBuffer = true → s.drawFuncs = true →
      ((s.extractPathDirect hb cp vars).2.fontVariations =
        vars.take (min vars.length 4) ∧
       (vars = [] → (s.extractPathDirect hb cp vars).2.fontVariations = []))) ∧
    (∀ (hb : HarfBuzzModel) (s : GlyphHandle) (vars : List Variation),
      s.font = true → s.buffer = true → s.drawFuncs = true →
      ((s.extractPath hb vars).2.fontVariations =
        vars.take (min vars.length 16) ∧
       (vars = [] → (s.extractPath hb vars).2.fontVariations = []))) := by
  constructor
  · intro hb s cp vars h1 h2 h3
    have hinst : installedVariations 4 vars = vars.take (min vars.length 4) := by
      rw [installedVariations_eq_take, take_min_length]
    constructor
    · simp [SharedFontData.extractPathDirect, h1, h2, h3, hinst]
      split <;> simp
    · intro hv
      subst hv
      simp [SharedFontData.extractPathDirect, h1, h2, h3, installedVariations]
      split <;> simp
  · intro hb s vars h1 h2 h3
    have hinst : installedVariations 16 vars =
        vars.take (min vars.length 16) := by
      rw [installedVariations_eq_take, take_min_length]
    constructor
    · simp [GlyphHandle.extractPath, h1, h2, h3, hinst]
      split <;> simp
    · intro hv
      subst hv
      simp [GlyphHandle.extractPath, h1, h2, h3, installedVariations]
      split <;> simp

/-- Witness for C6: a five-entry variation list installs its first 4
variations in the compose variant and all 5 in the runtime variant; the
empty list clears the settings. -/
theorem C6_variation_install_bound_witness :
    (readyShared.extractPathDirect hbSample 65 sampleVariations).2.fontVariations =
      sampleVariations.take (min sampleVariations.length 4) ∧
    (readyHandle.extractPath hbSample sampleVariations).2.fontVariations =
      sampleVariations.take (min sampleVariations.length 16) ∧
    (readyShared.extractPathDirect hbSample 65 []).2.fontVariations = [] := by
  exact ⟨(C6_variation_install_bound.1 hbSample readyShared 65 sampleVariations
            rfl rfl rfl).1,
         (C6_variation_install_bound.2 hbSample readyHandle sampleVariations
            rfl rfl rfl).1,
         (C6_variation_install_bound.1 hbSample readyShared 65 []
            rfl rfl rfl).2 rfl⟩

/-- C8: extraction is idempotent over the session state it mutates — in
both variants, running the same extraction again on the state left by a
first call (same codepoint, same variation list, no interleaved call)
returns an identical GlyphPath (same command sequence, advance width,
units-per-em and bounding box). -/
theorem C8_extract_idempotent :
    (∀ (hb : HarfBuzzModel) (s : SharedFontData) (cp : ℕ)
        (vars : List Variation),
      ((s.extractPathDirect hb cp vars).2.extractPathDirect hb cp vars).1 =
        (s.extractPathDirect hb cp vars).1) ∧
    (∀ (hb : HarfBuzzModel) (s : GlyphHandle) (vars : List Variation),
      ((s.extractPath hb vars).2.extractPath hb vars).1 =
        (s.extractPath hb vars).1) := by
  constructor
  · intro hb s cp vars
    by_cases hv : s.prototypeFont ∧ s.reusableBuffer ∧ s.drawFuncs
    · by_cases hg : (hb.shape cp (installedVariations 4 vars)).isEmpty <;>
        simp [SharedFontData.extractPathDirect, hv, hg]
    · simp [SharedFontData.extractPathDirect, hv]
  · intro hb s vars
    by_cases hv : s.font ∧ s.buffer ∧ s.drawFuncs
    · by_cases hg : (hb.shape s.codepoint (installedVariations 16 vars)).isEmpty <;>
        simp [GlyphHandle.extractPath, hv, hg]
    · simp [GlyphHandle.extractPath, hv]

/-- C10: when shaping succeeds but the outline walk appends zero
commands (a whitespace-like glyph), the result has `isEmpty()` true yet
its bounding box holds the fold's sentinel values — `minX = minY =
FLT_MAX` and `maxX = maxY = -FLT_MAX`, so max < min — while
`unitsPerEm` and `advanceWidth` are still populated from the font, in
both variants. -/
theorem C10_empty_outline_sentinels :
    (∀ (hb : HarfBuzzModel) (s : SharedFontData) (cp : ℕ)
        (vars : List Variation),
      s.prototypeFont = true → s.reusableBuffer = true → s.drawFuncs = true →
      hb.shape cp (installedVariations 4 vars) ≠ [] →
      hb.drawGlyph (hb.shape cp (installedVariations 4 vars)).headI
        (installedVariations 4 vars) = [] →
      (s.extractPathDirect hb cp vars).1.isEmpty = true ∧
      (s.extractPathDirect hb cp vars).1.minX = FLT_MAX ∧
      (s.extractPathDirect hb cp vars).1.minY = FLT_MAX ∧
      (s.extractPathDirect hb cp vars).1.maxX = -FLT_MAX ∧
      (s.extractPathDirect hb cp vars).1.maxY = -FLT_MAX ∧
      (s.extractPathDirect hb cp vars).1.maxX <
        (s.extractPathDirect hb cp vars).1.minX ∧
      (s.extractPathDirect hb cp vars).1.unitsPerEm = (s.upem : ℤ) ∧
      (s.extractPathDirect hb cp vars).1.advanceWidth =
        ((hb.hAdvance (hb.shape cp (installedVariations 4 vars)).headI
          (installedVariations 4 vars) : ℚ) * (1 / (s.upem : ℚ)))) ∧
    (∀ (hb : HarfBuzzModel) (s : GlyphHandle) (vars : List Variation),
      s.font = true → s.buffer = true → s.drawFuncs = true →
      hb.shape s.codepoint (installedVariations 16 vars) ≠ [] →
      hb.drawGlyph (hb.shape s.codepoint (installedVariations 16 vars)).headI
        (installedVariations 16 vars) = [] →
      (s.extractPath hb vars).1.isEmpty = true ∧
      (s.extractPath hb vars).1.minX = FLT_MAX ∧
      (s.extractPath hb vars).1.minY = FLT_MAX ∧
      (s.extractPath hb vars).1.maxX = -FLT_MAX ∧
      (s.extractPath hb vars).1.maxY = -FLT_MAX ∧
      (s.extractPath hb vars).1.maxX < (s.extractPath hb vars).1.minX ∧
      (s.extractPath hb vars).1.unitsPerEm = (s.upem : ℤ) ∧
      (s.extractPath hb vars).1.advanceWidth =
        ((hb.hAdvance (hb.shape s.codepoint (installedVariations 16 vars)).headI
          (installedVariations 16 vars) : ℚ) * (1 / (s.upem : ℚ)))) := by
  have hlt : (-FLT_MAX : ℚ) < FLT_MAX := by norm_num [FLT_MAX]
  constructor
  · intro hb s cp vars h1 h2 h3 hne hdraw
    have hg : ¬(hb.shape cp (installedVariations 4 vars)).isEmpty := by
      simpa [List.isEmpty_iff] using hne
    simp [SharedFontData.extractPathDirect, h1, h2, h3, hg, hdraw,
      scaleAndBoundsCompose, BBox.init, GlyphPath.isEmpty, hlt]
  · intro hb s vars h1 h2 h3 hne hdraw
    have hg : ¬(hb.shape s.codepoint (installedVariations 16 vars)).isEmpty := by
      simpa [List.isEmpty_iff] using hne
    simp [GlyphHandle.extractPath, h1, h2, h3, hg, hdraw,
      BBox.init, GlyphPath.isEmpty, hlt]

/-- Witness for C10: extracting a whitespace-like glyph (shapes to glyph
3 with advance 250, no outline) from a valid session of both variants
yields an empty result with sentinel bounds and populated metrics. -/
theorem C10_empty_outline_sentinels_witness :
    (readyShared.extractPathDirect hbWhitespace 32 []).1.isEmpty = true ∧
    (readyShared.extractPathDirect hbWhitespace 32 []).1.minX = FLT_MAX ∧
    (readyShared.extractPathDirect hbWhitespace 32 []).1.maxX = -FLT_MAX ∧
    (readyShared.extractPathDirect hbWhitespace 32 []).1.maxX <
      (readyShared.extractPathDirect hbWhitespace 32 []).1.minX ∧
    (readyShared.extractPathDirect hbWhitespace 32 []).1.unitsPerEm =
      ((1000 : ℕ) : ℤ) ∧
    (readyHandle.extractPath hbWhitespace []).1.isEmpty = true ∧
    (readyHandle.extractPath hbWhitespace []).1.minX = FLT_MAX ∧
    (readyHandle.extractPath hbWhitespace []).1.maxX <
      (readyHandle.extractPath hbWhitespace []).1.minX := by
  have hc := C10_empty_outline_sentinels.1 hbWhitespace readyShared 32 []
    rfl rfl rfl (by simp [hbWhitespace, installedVariations]) rfl
  have hr := C10_empty_outline_sentinels.2 hbWhitespace readyHandle []
    rfl rfl rfl (by simp [hbWhitespace, installedVariations]) rfl
  exact ⟨hc.1, hc.2.1, hc.2.2.2.1, hc.2.2.2.2.2.1, hc.2.2.2.2.2.2.1,
    hr.1, hr.2.1, hr.2.2.2.2.2.1⟩

end FontSubsetting

namespace FontSubsetting

/-- C3 counterexample: tearing down a live native font handle frees the
raw font bytes FIRST and only then releases the derived engine objects
(`free(handle->fontData)` precedes `delete handle->sharedFont`), so the
claim that all derived engine state is released before the raw font
bytes are freed is false on the concrete full handle. -/
theorem C3_counterexample :
    nativeDestroyFontHandle fullNativeHandle =
      [TeardownEvent.freeFontData, TeardownEvent.release HBObj.drawFuncs,
       TeardownEvent.release HBObj.buffer, TeardownEvent.release HBObj.font,
       TeardownEvent.release HBObj.face, TeardownEvent.release HBObj.blob,
       TeardownEvent.deleteHandle] ∧
    noReleaseAfterFree (nativeDestroyFontHandle fullNativeHandle) = false := by
  constructor <;> rfl

/-- C3 amended: `SharedFontData::destroy` releases the derived engine
objects in strict reverse-of-creation order (draw funcs, buffer, font,
face, blob — the reverse of blob, face, font, buffer, draw funcs), nulls
every owned pointer, and a second destroy is a no-op; however, at native
handle teardown the raw font bytes are freed BEFORE the derived engine
state is released, not after. -/
theorem C3_destroy_amended :
    (∀ s : SharedFontData,
      s.blob = true → s.face = true → s.prototypeFont = true →
      s.reusableBuffer = true → s.drawFuncs = true →
      s.destroy.1 = creationOrder.reverse) ∧
    (∀ s : SharedFontData,
      s.destroy.2.destroy.1 = [] ∧ s.destroy.2.destroy.2 = s.destroy.2) ∧
    (∀ s : SharedFontData, s.destroy.2.allReleased) ∧
    (∀ h : NativeFontHandle, h.fontPtr ≠ 0 → h.fontDataPtr = true →
      h.sharedFontPtr = true →
      nativeDestroyFontHandle h =
        TeardownEvent.freeFontData ::
          (h.sharedFont.destroy.1.map TeardownEvent.release ++
           [TeardownEvent.deleteHandle])) := by
  refine ⟨?_, ?_, ?_, ?_⟩
  · intro s h1 h2 h3 h4 h5
    simp [SharedFontData.destroy, creationOrder, h1, h2, h3, h4, h5]
  · intro s
    exact ⟨rfl, rfl⟩
  · intro s
    exact ⟨rfl, rfl, rfl, rfl, rfl⟩
  · intro h hp hd hs
    simp [nativeDestroyFontHandle, hp, hd, hs]

/-- Witness for C3 (amended): the fully initialized session and handle —
reverse-order release trace, idempotent second destroy, and the
bytes-freed-first teardown trace. -/
theorem C3_destroy_amended_witness :
    readyShared.destroy.1 = creationOrder.reverse ∧
    readyShared.destroy.2.destroy.1 = [] ∧
    nativeDestroyFontHandle fullNativeHandle =
      TeardownEvent.freeFontData ::
        (readyShared.destroy.1.map TeardownEvent.release ++
         [TeardownEvent.deleteHandle]) := by
  refine ⟨C3_destroy_amended.1 readyShared rfl rfl rfl rfl rfl,
    (C3_destroy_amended.2.1 readyShared).1, ?_⟩
  exact C3_destroy_amended.2.2.2 fullNativeHandle (by decide) rfl rfl

/-- C4 counterexample: in the compose variant, a buffer whose capacity
is 0 (left so by a failed constructor allocation) drops an append even
though allocation would succeed — `grow()` computes `0 * 2 = 0` and
`reserve(0)` returns without ever calling the allocator — so the claim
that append either stores the command or fails only on allocation
failure is false at this state. -/
theorem C4_counterexample :
    ¬ appendClaim pushBackCompose true { entries := [], capacity := 0 }
        { type := .CLOSE, x1 := 0, y1 := 0, x2 := 0, y2 := 0,
          x3 := 0, y3 := 0 } := by
  unfold appendClaim
  decide

/-- C4 amended: for every buffer state satisfying the C++ invariant
`size ≤ capacity`, append either stores the command at index `size`
(doubling the capacity when full — from 8 in the runtime variant whose
initial capacity is 0, from the non-zero initial capacity in the
compose variant — and preserving all existing entries in order) or, on
allocation failure, leaves the stored commands unchanged; additionally,
in the compose variant a buffer with capacity 0 (possible only after
the constructor's initial 32-slot allocation failed) drops every append
without attempting allocation.  In both variants `push_back` returns
`void`, so no failure is ever signalled to the caller. -/
theorem C4_append_amended :
    (∀ (allocOk : Bool) (a : PathCommandArray) (cmd : PathCommand),
      a.entries.length ≤ a.capacity →
      (appendClaim pushBackRuntime allocOk a cmd ∧
       (a.capacity ≤ a.entries.length → allocOk = true →
         (pushBackRuntime allocOk a cmd).capacity =
           (if a.capacity = 0 then 8 else a.capacity * 2)))) ∧
    (∀ (allocOk : Bool) (a : PathCommandArray) (cmd : PathCommand),
      a.entries.length ≤ a.capacity → 0 < a.capacity →
      (appendClaim pushBackCompose allocOk a cmd ∧
       (a.capacity ≤ a.entries.length → allocOk = true →
         (pushBackCompose allocOk a cmd).capacity = a.capacity * 2))) ∧
    (∀ (allocOk : Bool) (a : PathCommandArray) (cmd : PathCommand),
      a.capacity = 0 → pushBackCompose allocOk a cmd = a) := by
  refine ⟨?_, ?_, ?_⟩
  · intro allocOk a cmd hinv
    by_cases hfull : a.capacity ≤ a.entries.length
    · have hlen : a.entries.length = a.capacity := le_antisymm hinv hfull
      by_cases hz : a.capacity = 0
      · cases allocOk
        · refine ⟨Or.inr ⟨rfl, ?_⟩, ?_⟩
          · simp [pushBackRuntime, hfull, hz, hlen]
          · intro _ hcon
            exact absurd hcon (by simp)
        · refine ⟨Or.inl ?_, fun _ _ => ?_⟩
          · simp [pushBackRuntime, hfull, hz, hlen]
          · simp [pushBackRuntime, hfull, hz, hlen]
      · have h2 : ¬(a.capacity * 2 ≤ a.capacity) := by omega
        have h3 : a.entries.length < a.capacity * 2 := by omega
        have h4 : a.capacity < a.capacity * 2 := by omega
        cases allocOk
        · refine ⟨Or.inr ⟨rfl, ?_⟩, ?_⟩
          · simp [pushBackRuntime, hfull, hz, hlen, h2]
          · intro _ hcon
            exact absurd hcon (by simp)
        · refine ⟨Or.inl ?_, fun _ _ => ?_⟩
          · simp [pushBackRuntime, hfull, hz, hlen, h2, h3, h4]
          · simp [pushBackRuntime, hfull, hz, hlen, h2, h4]
    · have hlt : a.entries.length < a.capacity := not_le.mp hfull
      refine ⟨Or.inl ?_, fun hf _ => absurd hf hfull⟩
      simp [pushBackRuntime, hfull, hlt]
  · intro allocOk a cmd hinv hpos
    have hz : ¬(a.capacity = 0) := by omega
    by_cases hfull : a.capacity ≤ a.entries.length
    · have hlen : a.entries.length = a.capacity := le_antisymm hinv hfull
      have h2 : ¬(a.capacity * 2 ≤ a.capacity) := by omega
      have h3 : a.entries.length < a.capacity * 2 := by omega
      have h4 : a.capacity < a.capacity * 2 := by omega
      cases allocOk
      · refine ⟨Or.inr ⟨rfl, ?_⟩, ?_⟩
        · simp [pushBackCompose, hfull, hlen, h2]
        · intro _ hcon
          exact absurd hcon (by simp)
      · refine ⟨Or.inl ?_, fun _ _ => ?_⟩
        · simp [pushBackCompose, hfull, hlen, h2, h3, h4]
        · simp [pushBackCompose, hfull, hlen, h2, h4]
    · have hlt : a.entries.length < a.capacity := not_le.mp hfull
      refine ⟨Or.inl ?_, fun hf _ => absurd hf hfull⟩
      simp [pushBackCompose, hfull, hlt]
  · intro allocOk a cmd hz
    simp [pushBackCompose, hz]

/-- Witness for C4 (amended): concrete appends — a first append into the
runtime variant's empty zero-capacity buffer grows it to capacity 8 and
stores the command; an append into a full one-slot compose buffer with
allocation failing leaves it unchanged; an append into a zero-capacity
compose buffer is dropped. -/
theorem C4_append_amended_witness :
    appendClaim pushBackRuntime true { entries := [], capacity := 0 }
      { type := .CLOSE, x1 := 0, y1 := 0, x2 := 0, y2 := 0,
        x3 := 0, y3 := 0 } ∧
    (pushBackRuntime true { entries := [], capacity := 0 }
      { type := .CLOSE, x1 := 0, y1 := 0, x2 := 0, y2 := 0,
        x3 := 0, y3 := 0 }).capacity = (if (0 : ℕ) = 0 then 8 else 0 * 2) ∧
    appendClaim pushBackCompose false
      { entries := [{ type := .CLOSE, x1 := 0, y1 := 0, x2 := 0, y2 := 0,
                      x3 := 0, y3 := 0 }], capacity := 1 }
      { type := .CLOSE, x1 := 0, y1 := 0, x2 := 0, y2 := 0,
        x3 := 0, y3 := 0 } ∧
    pushBackCompose true { entries := [], capacity := 0 }
      { type := .CLOSE, x1 := 0, y1 := 0, x2 := 0, y2 := 0,
        x3 := 0, y3 := 0 } = { entries := [], capacity := 0 } := by
  refine ⟨(C4_append_amended.1 true { entries := [], capacity := 0 } _
            (by decide)).1,
          (C4_append_amended.1 true { entries := [], capacity := 0 }
            { type := .CLOSE, x1 := 0, y1 := 0, x2 := 0, y2 := 0,
              x3 := 0, y3 := 0 } (by decide)).2 (by decide) rfl,
          (C4_append_amended.2.1 false _ _ (by decide) (by decide)).1,
          C4_append_amended.2.2 true { entries := [], capacity := 0 } _ rfl⟩

/-- C5: session creation is atomic on failure, in both variants — if the
bytes are absent/empty, or any of the five derived engine objects (blob,
face, font, shaping buffer, draw-callback table) cannot be allocated,
initialization returns failure with every owned engine pointer null
(everything created earlier in the attempt has been released); more
generally every failing initialization leaves no partial session. -/
theorem C5_initialize_atomic :
    (∀ (o : AllocOracle) (hb : HarfBuzzModel) (present : Bool) (size : ℕ),
      (present = false ∨ size = 0 ∨ o.blobOk = false ∨ o.faceOk = false ∨
       o.fontOk = false ∨ o.bufferOk = false ∨ o.drawFuncsOk = false) →
      ( SharedFontData.initialize o hb present size).1 = false ∧
      ( SharedFontData.initialize o hb present size).2.allReleased) ∧
    (∀ (o : AllocOracle) (hb : HarfBuzzModel) (present : Bool) (size : ℕ),
      ( SharedFontData.initialize o hb present size).1 = false →
      ( SharedFontData.initialize o hb present size).2.allReleased) ∧
    (∀ (o : AllocOracle) (hb : HarfBuzzModel) (present : Bool) (size cp : ℕ),
      (present = false ∨ size = 0 ∨ o.blobOk = false ∨ o.faceOk = false ∨
       o.fontOk = false ∨ o.bufferOk = false ∨ o.drawFuncsOk = false) →
      ( GlyphHandle.initialize o hb present size cp).1 = false ∧
      ( GlyphHandle.initialize o hb present size cp).2.allReleased) ∧
    (∀ (o : AllocOracle) (hb : HarfBuzzModel) (present : Bool) (size cp : ℕ),
      ( GlyphHandle.initialize o hb present size cp).1 = false →
      ( GlyphHandle.initialize o hb present size cp).2.allReleased) := by
  refine ⟨?_, ?_, ?_, ?_⟩
  · intro o hb present size h
    obtain ⟨b1, b2, b3, b4, b5⟩ := o
    by_cases hs : size = 0 <;> cases present <;> cases b1 <;> cases b2 <;>
      cases b3 <;> cases b4 <;> cases b5 <;>
      simp_all [ SharedFontData.initialize, SharedFontData.destroy,
        SharedFontData.allReleased, SharedFontData.null]
  · intro o hb present size h
    obtain ⟨b1, b2, b3, b4, b5⟩ := o
    by_cases hs : size = 0 <;> cases present <;> cases b1 <;> cases b2 <;>
      cases b3 <;> cases b4 <;> cases b5 <;>
      simp_all [ SharedFontData.initialize, SharedFontData.destroy,
        SharedFontData.allReleased, SharedFontData.null]
  · intro o hb present size cp h
    obtain ⟨b1, b2, b3, b4, b5⟩ := o
    by_cases hs : size = 0 <;> cases present <;> cases b1 <;> cases b2 <;>
      cases b3 <;> cases b4 <;> cases b5 <;>
      simp_all [ GlyphHandle.initialize, GlyphHandle.destroy,
        GlyphHandle.allReleased, GlyphHandle.null]
  · intro o hb present size cp h
    obtain ⟨b1, b2, b3, b4, b5⟩ := o
    by_cases hs : size = 0 <;> cases present <;> cases b1 <;> cases b2 <;>
      cases b3 <;> cases b4 <;> cases b5 <;>
      by_cases hg : (hb.shape cp []).isEmpty <;>
      simp_all [ GlyphHandle.initialize, GlyphHandle.destroy,
        GlyphHandle.allReleased, GlyphHandle.null]
  
/-- Witness for C5: a buffer-allocation failure in the compose variant
and a face-allocation failure in the runtime variant both fail the
initialization and leave every owned pointer null. -/
theorem C5_initialize_atomic_witness :
    ( SharedFontData.initialize
      { blobOk := true, faceOk := true, fontOk := true, bufferOk := false,
        drawFuncsOk := true } hbSample true 4).1 = false ∧
    ( SharedFontData.initialize
      { blobOk := true, faceOk := true, fontOk := true, bufferOk := false,
        drawFuncsOk := true } hbSample true 4).2.allReleased ∧
    ( GlyphHandle.initialize
      { blobOk := true, faceOk := false, fontOk := true, bufferOk := true,
        drawFuncsOk := true } hbSample true 4 65).1 = false ∧
    ( GlyphHandle.initialize
      { blobOk := true, faceOk := false, fontOk := true, bufferOk := true,
        drawFuncsOk := true } hbSample true 4 65).2.allReleased := by
  have h1 := C5_initialize_atomic.1
    { blobOk := true, faceOk := true, fontOk := true, bufferOk := false,
      drawFuncsOk := true } hbSample true 4 (by decide)
  have h2 := C5_initialize_atomic.2.2.1
    { blobOk := true, faceOk := false, fontOk := true, bufferOk := true,
      drawFuncsOk := true } hbSample true 4 65 (by decide)
  exact ⟨h1.1, h1.2, h2.1, h2.2⟩

/-- C9: the engine's keep-glyph-names flag is included in the
subset-input flags if and only if `stripGlyphNames` is false (inverted
semantics: not setting the keep flag is what removes glyph names), so
when `stripGlyphNames` is true the flag is never set regardless of the
font's hinting or `post` table sizes. -/
theorem C9_glyph_names_flag (stripHinting stripGlyphNames : Bool)
    (totalHintingSize postSize : ℕ) :
    ((performSubsettingFlags stripHinting stripGlyphNames totalHintingSize
        postSize).testBit 8 = true) ↔ stripGlyphNames = false := by
  cases stripHinting <;> cases stripGlyphNames <;>
    by_cases hh : 0 < totalHintingSize <;> by_cases hp : 0 < postSize <;>
    simp [performSubsettingFlags, HB_SUBSET_FLAGS_DEFAULT,
      HB_SUBSET_FLAGS_NO_HINTING, HB_SUBSET_FLAGS_DESUBROUTINIZE,
      HB_SUBSET_FLAGS_GLYPH_NAMES, hh, hp] <;>
    decide

end FontSubsetting
